import Mathlib

/-!
Verification of the lpc8xx-hal DMA-coordinated I2C master/slave subsystem.

The development shallowly embeds the Rust sources:

- `src/dma/peripheral.rs`: the DMA controller handle with its
  enable/disable type-state life cycle (`Dma` namespace);
- `src/pmu.rs`: `Handle::enter_sleep_mode` (`Pmu` namespace);
- `examples/i2c_master_slave_dma.rs`: the `i2c0` slave interrupt task and
  the master transaction loop (`I2c` namespace).

Parts of the I2C driver and of the DMA channel allocator that the claims
refer to are not present in the sources available here; those are modelled
from the specification and carry a doc comment saying so.
-/

namespace Lpc8xxHal

/-- Peripheral initialization state, from the crate's `init_state` module:
a handle is tagged `Disabled` or `Enabled`. -/
inductive InitState
  | disabled
  | enabled
  deriving DecidableEq, Repr

namespace Dma

/-- A hardware register write performed by the DMA handle operations, in the
order the source performs them (`syscon.enable_clock`, the `srambase` register,
the `ctrl` register). -/
inductive RegWrite
  | sysconEnableClock
  | sysconDisableClock
  | dmaSrambase (value : Nat)
  | dmaCtrlEnable
  deriving DecidableEq, Repr

/-- Whether a register write targets the descriptor-table base address
register (`DMA0.srambase`). -/
def RegWrite.isSrambaseWrite : RegWrite → Bool
  | .dmaSrambase _ => true
  | _ => false

/-- The syscon handle, reduced to the one capability the DMA handle uses:
the clock gate for the DMA peripheral (`syscon.rs`, `enable_clock` /
`disable_clock`). -/
structure SysconHandle where
  dmaClockEnabled : Bool
  deriving DecidableEq, Repr

/-- Handle to the DMA controller, from `dma/peripheral.rs`:
`Handle<State> \x7b _state: State, dma: pac::DMA0, srambase: u32 \x7d`.
The `pac::DMA0` register-block token is a zero-sized ownership token in the
source; its identity is modelled by `dmaId`. -/
structure Handle where
  state : InitState
  dmaId : Nat
  srambase : Nat
  deriving DecidableEq, Repr

/-- `Handle::new` from `dma/peripheral.rs`: constructs the disabled handle,
storing the peripheral token and the `srambase` value. -/
def Handle.new (dmaId srambase : Nat) : Handle :=
  { state := .disabled, dmaId := dmaId, srambase := srambase }

/-- Entry point to the DMA API, from `dma/peripheral.rs`. `DMA::new` captures
the address of the static descriptor table (`&mut DESCRIPTORS as *mut _ as
u32`) and stores it as the handle's `srambase`; the static's link-time address
is the parameter `descriptorsAddr` of the model. -/
structure DMA where
  handle : Handle
  deriving DecidableEq, Repr

/-- `DMA::new` from `dma/peripheral.rs` lines 14-23. -/
def DMA.new (dmaId descriptorsAddr : Nat) : DMA :=
  { handle := Handle.new dmaId descriptorsAddr }

/-- `Handle::<Disabled>::enable` from `dma/peripheral.rs` lines 59-85:
enables the clock, writes the descriptor-table base address to `srambase`,
writes the enable bit to `ctrl`, and returns the handle re-tagged `Enabled`.
The result also lists the register writes performed, in order. -/
def Handle.enable (h : Handle) (syscon : SysconHandle) :
    Handle × SysconHandle × List RegWrite :=
  ({ state := .enabled, dmaId := h.dmaId, srambase := h.srambase },
   { syscon with dmaClockEnabled := true },
   [.sysconEnableClock, .dmaSrambase h.srambase, .dmaCtrlEnable])

/-- `Handle::<Enabled>::disable` from `dma/peripheral.rs` lines 87-101:
disables the clock and returns the handle re-tagged `Disabled`. -/
def Handle.disable (h : Handle) (syscon : SysconHandle) :
    Handle × SysconHandle × List RegWrite :=
  ({ state := .disabled, dmaId := h.dmaId, srambase := h.srambase },
   { syscon with dmaClockEnabled := false },
   [.sysconDisableClock])

/-- How invoking an operation on a handle in the wrong life-cycle state is
reported. In the source the rejection is static: `enable` exists only on
`Handle<Disabled>` and `disable` only on `Handle<Enabled>`, so the call does
not compile. The embedding renders that gate as `operationUnavailable`, the
programming-error class the spec (section 9) keeps distinct from the
recoverable `configurationError` class. -/
inductive ApiError
  | configurationError
  | operationUnavailable
  deriving DecidableEq, Repr

/-- The operations the DMA handle offers. -/
inductive DmaOp
  | enableOp
  | disableOp
  deriving DecidableEq, Repr

/-- Invoking one operation on the handle. The `if` on the state tag is the
source's type-state gate made explicit: in the wrong state the operation is
unavailable and no hardware access happens. -/
def applyOp (h : Handle) (s : SysconHandle) :
    DmaOp → Except ApiError (Handle × SysconHandle × List RegWrite)
  | .enableOp =>
    if h.state = .disabled then .ok (h.enable s) else .error .operationUnavailable
  | .disableOp =>
    if h.state = .enabled then .ok (h.disable s) else .error .operationUnavailable

/-- Running a sequence of operations; a rejected call performs nothing. The
result collects the handle, the syscon state and all register writes in
order. -/
def runOps (h : Handle) (s : SysconHandle) :
    List DmaOp → Handle × SysconHandle × List RegWrite
  | [] => (h, s, [])
  | op :: ops =>
    match applyOp h s op with
    | .error _ => runOps h s ops
    | .ok (h1, s1, ws) =>
      let r := runOps h1 s1 ops
      (r.1, r.2.1, ws ++ r.2.2)

theorem applyOp_frame (h : Handle) (s : SysconHandle) (op : DmaOp)
    (h1 : Handle) (s1 : SysconHandle) (ws : List RegWrite)
    (happ : applyOp h s op = .ok (h1, s1, ws)) :
    h1.dmaId = h.dmaId ∧ h1.srambase = h.srambase ∧
      ∀ v, RegWrite.dmaSrambase v ∈ ws → v = h.srambase := by
  cases op with
  | enableOp =>
    rw [applyOp] at happ
    by_cases hst : h.state = InitState.disabled
    · rw [if_pos hst, Handle.enable] at happ
      simp only [Except.ok.injEq, Prod.mk.injEq] at happ
      obtain ⟨e1, e2, e3⟩ := happ
      subst e1
      subst e3
      refine ⟨rfl, rfl, ?_⟩
      intro v hv
      simp at hv
      exact hv
    · rw [if_neg hst] at happ
      simp at happ
  | disableOp =>
    rw [applyOp] at happ
    by_cases hst : h.state = InitState.enabled
    · rw [if_pos hst, Handle.disable] at happ
      simp only [Except.ok.injEq, Prod.mk.injEq] at happ
      obtain ⟨e1, e2, e3⟩ := happ
      subst e1
      subst e3
      refine ⟨rfl, rfl, ?_⟩
      intro v hv
      simp at hv
    · rw [if_neg hst] at happ
      simp at happ

theorem runOps_srambase (ops : List DmaOp) :
    ∀ h s, (runOps h s ops).1.dmaId = h.dmaId ∧
      (runOps h s ops).1.srambase = h.srambase ∧
      ∀ v, RegWrite.dmaSrambase v ∈ (runOps h s ops).2.2 → v = h.srambase := by
  induction ops with
  | nil =>
    intro h s
    refine ⟨rfl, rfl, ?_⟩
    intro v hv
    simp [runOps] at hv
  | cons op ops ih =>
    intro h s
    simp only [runOps]
    cases happ : applyOp h s op with
    | error e => exact ih h s
    | ok r =>
      obtain ⟨h1, s1, ws⟩ := r
      obtain ⟨hid, hsb, hws⟩ := applyOp_frame h s op h1 s1 ws happ
      obtain ⟨ihid, ihsb, ihws⟩ := ih h1 s1
      refine ⟨by rw [ihid, hid], by rw [ihsb, hsb], ?_⟩
      intro v hv
      rw [List.mem_append] at hv
      rcases hv with hv | hv
      · exact hws v hv
      · rw [← hsb]
        exact ihws v hv

/-- The disjunction claim C8 asserts about a second `enable` of an
already-enabled controller: the call is rejected as a runtime configuration
error, or it is a no-op (same handle, same syscon state, no register
writes). -/
def reenableIsConfigErrorOrNoop (h : Handle) (s : SysconHandle) : Prop :=
  applyOp h s .enableOp = .error ApiError.configurationError ∨
  applyOp h s .enableOp = .ok (h, s, [])

/-- Claim C8 counterexample: at the concrete already-enabled handle, a second
`enable` is neither rejected as a configuration error nor a verified no-op:
the operation does not exist on an enabled handle (static type-state
rejection), so the disjunction the claim asserts is false. -/
theorem reenable_neither_config_error_nor_noop :
    reenableIsConfigErrorOrNoop ⟨InitState.enabled, 0, 4096⟩ ⟨true⟩ = False := by
  refine eq_false ?_
  intro hcontra
  rcases hcontra with hc | hc <;> rw [applyOp] at hc <;> simp at hc

/-- Claim C8 (amended): `enable` on a disabled DMA handle activates the engine
and writes the descriptor-table base address register exactly once, and a
second `enable` of an already-enabled controller is rejected statically,
before any hardware write: the operation is unavailable on an enabled handle,
rather than a runtime configuration error or a no-op. -/
theorem enable_writes_base_once_and_reenable_unavailable
    (h : Handle) (s : SysconHandle) :
    (h.state = InitState.disabled →
      ∃ h1 s1 ws, applyOp h s .enableOp = .ok (h1, s1, ws) ∧
        (ws.filter RegWrite.isSrambaseWrite).length = 1 ∧
        RegWrite.dmaCtrlEnable ∈ ws ∧ h1.state = InitState.enabled) ∧
    (h.state = InitState.enabled →
      applyOp h s .enableOp = .error ApiError.operationUnavailable) := by
  constructor
  · intro hd
    refine ⟨⟨InitState.enabled, h.dmaId, h.srambase⟩,
      { s with dmaClockEnabled := true },
      [.sysconEnableClock, .dmaSrambase h.srambase, .dmaCtrlEnable],
      ?_, rfl, ?_, rfl⟩
    · rw [applyOp, if_pos hd]
      rfl
    · simp
  · intro he
    rw [applyOp, if_neg ?_]
    rw [he]
    intro hcontra
    exact InitState.noConfusion hcontra

/-- Witness for claim C8's amended theorem: both sides exercised at concrete
handles. -/
theorem enable_writes_base_once_witness :
    (∃ h1 s1 ws,
      applyOp ⟨InitState.disabled, 0, 4096⟩ ⟨false⟩ .enableOp = .ok (h1, s1, ws) ∧
        (ws.filter RegWrite.isSrambaseWrite).length = 1 ∧
        RegWrite.dmaCtrlEnable ∈ ws ∧ h1.state = InitState.enabled) ∧
    applyOp ⟨InitState.enabled, 0, 4096⟩ ⟨true⟩ .enableOp =
      .error ApiError.operationUnavailable :=
  ⟨(enable_writes_base_once_and_reenable_unavailable
      ⟨InitState.disabled, 0, 4096⟩ ⟨false⟩).1 rfl,
   (enable_writes_base_once_and_reenable_unavailable
      ⟨InitState.enabled, 0, 4096⟩ ⟨true⟩).2 rfl⟩

/-- Claim C9: every enable/disable transition changes only the state tag: the
wrapped peripheral token and the stored `srambase` are carried through
unchanged, so along any operation sequence from `DMA::new` the handle still
holds the descriptor-table address captured at construction and every write of
the `srambase` register carries exactly that address. -/
theorem transitions_preserve_srambase
    (dmaId descAddr : Nat) (s : SysconHandle) (ops : List DmaOp) :
    (∀ h s0 op h1 s1 ws, applyOp h s0 op = .ok (h1, s1, ws) →
      h1.dmaId = h.dmaId ∧ h1.srambase = h.srambase) ∧
    (runOps (DMA.new dmaId descAddr).handle s ops).1.srambase = descAddr ∧
    (∀ v, RegWrite.dmaSrambase v ∈ (runOps (DMA.new dmaId descAddr).handle s ops).2.2 →
      v = descAddr) := by
  refine ⟨?_, ?_, ?_⟩
  · intro h s0 op h1 s1 ws happ
    exact ⟨(applyOp_frame h s0 op h1 s1 ws happ).1,
      (applyOp_frame h s0 op h1 s1 ws happ).2.1⟩
  · exact (runOps_srambase ops (DMA.new dmaId descAddr).handle s).2.1
  · exact (runOps_srambase ops (DMA.new dmaId descAddr).handle s).2.2

/-- Witness for claim C9's theorem: a concrete enable/disable/enable sequence
from a concrete `DMA::new`, plus the transition frame property at a concrete
successful `enable`. -/
theorem transitions_preserve_srambase_witness :
    (Handle.dmaId ⟨InitState.enabled, 3, 4096⟩ =
        Handle.dmaId ⟨InitState.disabled, 3, 4096⟩ ∧
      Handle.srambase ⟨InitState.enabled, 3, 4096⟩ =
        Handle.srambase ⟨InitState.disabled, 3, 4096⟩) ∧
    (runOps (DMA.new 3 4096).handle ⟨false⟩
        [DmaOp.enableOp, DmaOp.disableOp, DmaOp.enableOp]).1.srambase = 4096 ∧
    4096 = 4096 :=
  ⟨(transitions_preserve_srambase 3 4096 ⟨false⟩ []).1
      ⟨InitState.disabled, 3, 4096⟩ ⟨false⟩ DmaOp.enableOp
      ⟨InitState.enabled, 3, 4096⟩ ⟨true⟩
      [RegWrite.sysconEnableClock, RegWrite.dmaSrambase 4096, RegWrite.dmaCtrlEnable]
      (by rw [applyOp]; rfl),
   (transitions_preserve_srambase 3 4096 ⟨false⟩
      [DmaOp.enableOp, DmaOp.disableOp, DmaOp.enableOp]).2.1,
   (transitions_preserve_srambase 3 4096 ⟨false⟩
      [DmaOp.enableOp, DmaOp.disableOp, DmaOp.enableOp]).2.2 4096 (by decide)⟩

end Dma

namespace Pmu

/-- The PMU's PCON register, reduced to its PM power-mode field (3 bits); the
write `w.pm().default()` in the source sets the field to 0 (active/sleep
mode). -/
structure PmuRegs where
  pconPm : Nat
  deriving DecidableEq, Repr

/-- The SCB, reduced to its SCR register (a 32-bit value). -/
structure Scb where
  scr : Nat
  deriving DecidableEq, Repr

/-- The SLEEPDEEP bit from the SCB's SCR register, `pmu.rs` line 197. -/
def SLEEPDEEP : Nat := 1 <<< 2

/-- The 32-bit all-ones mask; `!SLEEPDEEP` on `u32` in the source is
`U32_MASK ^^^ SLEEPDEEP`. -/
def U32_MASK : Nat := 2 ^ 32 - 1

/-- One step performed by `enter_sleep_mode`, in execution order. -/
inductive SleepStep
  | writePconPm (pm : Nat)
  | writeScr (scr : Nat)
  | dsb
  | wfi
  deriving DecidableEq, Repr

/-- `Handle::enter_sleep_mode` from `pmu.rs` lines 101-118: inside a critical
section it writes PM = default (0) to PCON, clears the SLEEPDEEP bit of
SCB.SCR (`scr & !SLEEPDEEP`), then executes `dsb` and `wfi`. Returns the
resulting register state and the steps in order. -/
def enter_sleep_mode (pmu : PmuRegs) (scb : Scb) :
    PmuRegs × Scb × List SleepStep :=
  let pm1 := 0
  let scr1 := scb.scr &&& (U32_MASK ^^^ SLEEPDEEP)
  ({ pmu with pconPm := pm1 }, { scb with scr := scr1 },
   [.writePconPm pm1, .writeScr scr1, .dsb, .wfi])

/-- Claim C10: for every prior value of PCON.PM and SCB.SCR,
`enter_sleep_mode` sets the power mode to default (0) and clears the
SLEEPDEEP bit (bit 2 of SCR is clear afterwards), and both register writes
happen strictly before the wait-for-interrupt step — regular sleep, never
deep sleep. -/
theorem enter_sleep_mode_regular_sleep (pmu : PmuRegs) (scb : Scb) :
    (enter_sleep_mode pmu scb).1.pconPm = 0 ∧
    (enter_sleep_mode pmu scb).2.1.scr.testBit 2 = false ∧
    (enter_sleep_mode pmu scb).2.2 =
      [SleepStep.writePconPm 0,
       SleepStep.writeScr ((enter_sleep_mode pmu scb).2.1.scr),
       SleepStep.dsb, SleepStep.wfi] := by
  refine ⟨rfl, ?_, rfl⟩
  show (scb.scr &&& (U32_MASK ^^^ SLEEPDEEP)).testBit 2 = false
  rw [Nat.testBit_and]
  have hmask : (U32_MASK ^^^ SLEEPDEEP).testBit 2 = false := by decide
  rw [hmask, Bool.and_false]

end Pmu

namespace I2c

/-- Slave session machine states, from the spec (sections 3 and 4.3): `Idle`,
`AddressMatched`, `ReceivingByte`, `TransmittingByte`, plus the `Fault`
pseudo-state hardware faults move to. -/
inductive SlaveMachineState
  | idle
  | addressMatched
  | receivingByte
  | transmittingByte
  | fault
  deriving DecidableEq, Repr

/-- The hardware event pending at one slave poll. The spec (section 4.3) has
each invocation read exactly one pending-event indicator: an address match, a
received byte available, transmit-register ready, a hardware-reported fault,
or no event pending. -/
inductive SlaveEvent
  | addressMatch
  | rxReady (byte : Nat)
  | txReady
  | busError
  | noEvent
  deriving DecidableEq, Repr

/-- Result of the driver's slave poll, as the example matches on it:
`Ok(State::AddressMatched)`, `Ok(State::RxReady)`, `Ok(State::TxReady)`,
`Err(nb::Error::WouldBlock)`, or another (fatal) error. -/
inductive WaitResult
  | addressMatched
  | rxReady (byte : Nat)
  | txReady
  | wouldBlock
  | fatal
  deriving DecidableEq, Repr

/-- Modelled from the spec: the non-blocking slave poll `i2c.wait()` of the
I2C driver, whose source is not among the files here. It reads the one
pending-event indicator and reports it; with no event pending it returns
`WouldBlock` (spec section 7: the normal no-event signal, not an error); a
hardware fault is surfaced as fatal. -/
def slaveWait : SlaveEvent → WaitResult
  | .addressMatch => .addressMatched
  | .rxReady b => .rxReady b
  | .txReady => .txReady
  | .busError => .fatal
  | .noEvent => .wouldBlock

/-- Modelled from the spec: the slave protocol state machine transition of the
I2C driver (spec section 4.3): address-match always transitions to
`AddressMatched` regardless of current state; a received byte moves to
`ReceivingByte`; a byte request moves to `TransmittingByte`; a hardware fault
moves to `Fault`; no event leaves the state unchanged. -/
def slaveStep (s : SlaveMachineState) : SlaveEvent → SlaveMachineState
  | .addressMatch => .addressMatched
  | .rxReady _ => .receivingByte
  | .txReady => .transmittingByte
  | .busError => .fault
  | .noEvent => s

/-- Claim C4: an address-match event in any non-fault state transitions the
machine to `AddressMatched` (so re-entry into `AddressMatched` is idempotent),
and an address-match event never transitions to `Fault`; only a bus-error
event does. -/
theorem address_match_always_wins (s : SlaveMachineState)
    (hs : s ≠ SlaveMachineState.fault) :
    slaveStep s SlaveEvent.addressMatch = SlaveMachineState.addressMatched ∧
    slaveStep SlaveMachineState.addressMatched SlaveEvent.addressMatch =
      SlaveMachineState.addressMatched ∧
    (∀ e, slaveStep s e = SlaveMachineState.fault → e = SlaveEvent.busError) := by
  refine ⟨rfl, rfl, ?_⟩
  intro e he
  cases e with
  | addressMatch => exact absurd he (by simp [slaveStep])
  | rxReady b => exact absurd he (by simp [slaveStep])
  | txReady => exact absurd he (by simp [slaveStep])
  | busError => rfl
  | noEvent => exact absurd he hs

/-- Witness for claim C4's theorem, at the concrete state `ReceivingByte`. -/
theorem address_match_always_wins_witness :
    SlaveMachineState.receivingByte ≠ SlaveMachineState.fault ∧
    (slaveStep SlaveMachineState.receivingByte SlaveEvent.addressMatch =
        SlaveMachineState.addressMatched ∧
      slaveStep SlaveMachineState.addressMatched SlaveEvent.addressMatch =
        SlaveMachineState.addressMatched ∧
      (∀ e, slaveStep SlaveMachineState.receivingByte e = SlaveMachineState.fault →
        e = SlaveEvent.busError)) :=
  ⟨by decide, address_match_always_wins SlaveMachineState.receivingByte (by decide)⟩

/-- An action the example's slave interrupt handler performs on the slave
registers: acknowledging the address, reading the received byte and
acknowledging it, writing the transmit register, or aborting on a fatal
error. -/
inductive SlaveAction
  | ackAddress
  | readByteAndAck
  | transmit (value : Nat)
  | fatalAbort
  deriving DecidableEq, Repr

/-- The slave session the example's `i2c0` interrupt task maintains: the
driver's machine state together with the task's `i2c_data` local, the last
received byte (a `u8`, held as a `Nat` below 256). -/
structure SlaveSession where
  machine : SlaveMachineState
  data : Option Nat
  deriving DecidableEq, Repr

/-- The `i2c0` interrupt task from `examples/i2c_master_slave_dma.rs` lines
126-164, coupled with the spec-modelled driver poll: on `AddressMatched` it
acks; on `RxReady` it reads the byte into `i2c_data` and acks; on `TxReady` it
writes `data << 1` to the transmit register if `i2c_data` holds a byte and
otherwise writes nothing; on `WouldBlock` it does nothing; on a fatal error it
panics. `data << 1` on `u8` keeps the low 8 bits, hence the `% 256`. -/
def i2c0 (s : SlaveSession) (ev : SlaveEvent) : SlaveSession × List SlaveAction :=
  match slaveWait ev with
  | .addressMatched =>
    ({ machine := slaveStep s.machine ev, data := s.data }, [.ackAddress])
  | .rxReady b =>
    ({ machine := slaveStep s.machine ev, data := some b }, [.readByteAndAck])
  | .txReady =>
    match s.data with
    | some d =>
      ({ machine := slaveStep s.machine ev, data := some d },
       [.transmit ((d <<< 1) % 256)])
    | none => ({ machine := slaveStep s.machine ev, data := none }, [])
  | .wouldBlock => (s, [])
  | .fatal =>
    ({ machine := slaveStep s.machine ev, data := s.data }, [.fatalAbort])

/-- Claim C6: a poll that returns `WouldBlock` leaves the whole slave session
unchanged — same machine state, same last received byte — and performs no
register access. -/
theorem wouldblock_poll_changes_nothing (s : SlaveSession) (ev : SlaveEvent)
    (hwb : slaveWait ev = WaitResult.wouldBlock) :
    (i2c0 s ev).1 = s ∧ (i2c0 s ev).1.machine = s.machine ∧
    (i2c0 s ev).1.data = s.data ∧ (i2c0 s ev).2 = [] := by
  cases ev <;> simp [slaveWait] at hwb
  simp [i2c0, slaveWait]

/-- Witness for claim C6's theorem, at a concrete session and the no-event
poll. -/
theorem wouldblock_poll_changes_nothing_witness :
    slaveWait SlaveEvent.noEvent = WaitResult.wouldBlock ∧
    ((i2c0 ⟨SlaveMachineState.addressMatched, some 5⟩ SlaveEvent.noEvent).1 =
        ⟨SlaveMachineState.addressMatched, some 5⟩ ∧
      (i2c0 ⟨SlaveMachineState.addressMatched, some 5⟩ SlaveEvent.noEvent).1.machine =
        SlaveMachineState.addressMatched ∧
      (i2c0 ⟨SlaveMachineState.addressMatched, some 5⟩ SlaveEvent.noEvent).1.data =
        some 5 ∧
      (i2c0 ⟨SlaveMachineState.addressMatched, some 5⟩ SlaveEvent.noEvent).2 = []) :=
  ⟨rfl, wouldblock_poll_changes_nothing ⟨SlaveMachineState.addressMatched, some 5⟩
    SlaveEvent.noEvent rfl⟩

/-- Running the slave interrupt handler over a sequence of pending events:
the final session and all register actions, in order. -/
def runSlave (s : SlaveSession) : List SlaveEvent → SlaveSession × List SlaveAction
  | [] => (s, [])
  | ev :: evs =>
    let stp := i2c0 s ev
    let rest := runSlave stp.1 evs
    (rest.1, stp.2 ++ rest.2)

theorem i2c0_data_origin (s : SlaveSession) (ev : SlaveEvent) :
    (i2c0 s ev).1.data = s.data ∨
    ∃ b, ev = SlaveEvent.rxReady b ∧ (i2c0 s ev).1.data = some b := by
  cases ev with
  | addressMatch => exact Or.inl rfl
  | rxReady b => exact Or.inr ⟨b, rfl, rfl⟩
  | txReady =>
    cases hd : s.data with
    | none => simp [i2c0, slaveWait, hd]
    | some d => simp [i2c0, slaveWait, hd]
  | busError => exact Or.inl rfl
  | noEvent => exact Or.inl rfl

theorem runSlave_transmit_origin (evs : List SlaveEvent) :
    ∀ s v, SlaveAction.transmit v ∈ (runSlave s evs).2 →
      ∃ pre suf b, evs = pre ++ SlaveEvent.txReady :: suf ∧
        v = (b <<< 1) % 256 ∧
        (s.data = some b ∨ SlaveEvent.rxReady b ∈ pre) := by
  induction evs with
  | nil =>
    intro s v hv
    simp [runSlave] at hv
  | cons ev rest ih =>
    intro s v hv
    rw [runSlave, List.mem_append] at hv
    rcases hv with hv | hv
    · cases ev with
      | addressMatch => simp [i2c0, slaveWait] at hv
      | rxReady b => simp [i2c0, slaveWait] at hv
      | txReady =>
        cases hd : s.data with
        | none => simp [i2c0, slaveWait, hd] at hv
        | some d =>
          simp [i2c0, slaveWait, hd] at hv
          exact ⟨[], rest, d, rfl, hv, Or.inl rfl⟩
      | busError => simp [i2c0, slaveWait] at hv
      | noEvent => simp [i2c0, slaveWait] at hv
    · obtain ⟨pre, suf, b, hsplit, hval, hsrc⟩ := ih (i2c0 s ev).1 v hv
      refine ⟨ev :: pre, suf, b, by rw [List.cons_append, hsplit], hval, ?_⟩
      rcases hsrc with hsrc | hsrc
      · rcases i2c0_data_origin s ev with hd | ⟨b0, hev, hd⟩
        · exact Or.inl (hd ▸ hsrc)
        · right
          rw [hd] at hsrc
          injection hsrc with hb
          rw [hev, hb]
          exact List.mem_cons_self _ _
      · exact Or.inr (List.mem_cons_of_mem _ hsrc)

/-- Claim C5: starting a slave session with no byte stored, the transmit-ready
handler never writes the transmit register before a byte has been received:
a transmit-ready poll with `i2c_data` empty performs no write, and every
transmit action in a run is preceded by a byte-received event whose stored
byte, shifted left by one, is the value written. -/
theorem transmit_requires_prior_receive (evs : List SlaveEvent) (v : Nat)
    (hmem : SlaveAction.transmit v ∈
      (runSlave ⟨SlaveMachineState.idle, none⟩ evs).2) :
    (∀ m, (i2c0 ⟨m, none⟩ SlaveEvent.txReady).2 = []) ∧
    ∃ pre suf b, evs = pre ++ SlaveEvent.txReady :: suf ∧
      SlaveEvent.rxReady b ∈ pre ∧ v = (b <<< 1) % 256 := by
  refine ⟨fun m => by simp [i2c0, slaveWait], ?_⟩
  obtain ⟨pre, suf, b, h1, h2, h3⟩ :=
    runSlave_transmit_origin evs ⟨SlaveMachineState.idle, none⟩ v hmem
  rcases h3 with h3 | h3
  · exact absurd h3 (by simp)
  · exact ⟨pre, suf, b, h1, h3, h2⟩

/-- Witness for claim C5's theorem: the run that receives byte 20 and then
serves a transmit-ready event writes 40, and the receive precedes the
write. -/
theorem transmit_requires_prior_receive_witness :
    SlaveAction.transmit 40 ∈
      (runSlave ⟨SlaveMachineState.idle, none⟩
        [SlaveEvent.rxReady 20, SlaveEvent.txReady]).2 ∧
    ((∀ m, (i2c0 ⟨m, none⟩ SlaveEvent.txReady).2 = []) ∧
      ∃ pre suf b,
        [SlaveEvent.rxReady 20, SlaveEvent.txReady] =
          pre ++ SlaveEvent.txReady :: suf ∧
        SlaveEvent.rxReady b ∈ pre ∧ 40 = (b <<< 1) % 256) :=
  ⟨by decide, transmit_requires_prior_receive
    [SlaveEvent.rxReady 20, SlaveEvent.txReady] 40 (by decide)⟩

/-- Modelled from the spec: the event sequence a master write transaction of
`bytes` to `addr` presents to the slave configured at `slaveAddr` (the I2C
bus and master engine sources are not among the files here). Standard I2C:
START, address (an address match fires at the addressed slave only), then one
byte-received event per data byte. -/
def masterWriteEvents (addr slaveAddr : Nat) (bytes : List Nat) :
    List SlaveEvent :=
  if addr = slaveAddr then SlaveEvent.addressMatch :: bytes.map SlaveEvent.rxReady
  else []

/-- Modelled from the spec: the event sequence a master read transaction of
`n` bytes from `addr` presents to the slave configured at `slaveAddr`: an
address match, then one transmit-ready event per byte read. -/
def masterReadEvents (addr slaveAddr : Nat) (n : Nat) : List SlaveEvent :=
  if addr = slaveAddr then
    SlaveEvent.addressMatch :: List.replicate n SlaveEvent.txReady
  else []

/-- The bytes a run of the slave clocks out: the transmit-register writes, in
order. -/
def transmittedBytes (acts : List SlaveAction) : List Nat :=
  acts.filterMap fun a =>
    match a with
    | .transmit v => some v
    | _ => none

/-- Modelled from the spec: the buffer `read_all` of `n` bytes returns is the
sequence of bytes the addressed slave clocks out during the read transaction;
the slave session advances accordingly. -/
def read_all_exchange (slave : SlaveSession) (addr slaveAddr n : Nat) :
    List Nat × SlaveSession :=
  let r := runSlave slave (masterReadEvents addr slaveAddr n)
  (transmittedBytes r.2, r.1)

/-- Claim C1: end to end, the master writes the single byte `0x14` to slave
address `0x24`; the slave session then holds `0x14`; the slave's transmit
handler writes `0x14 <<< 1 = 0x28`; and the master's subsequent `read_all` of
one byte returns the buffer `[0x28]`. -/
theorem end_to_end_exchange :
    (runSlave ⟨SlaveMachineState.idle, none⟩
        (masterWriteEvents 0x24 0x24 [0x14])).1.data = some 0x14 ∧
    (read_all_exchange
        (runSlave ⟨SlaveMachineState.idle, none⟩
          (masterWriteEvents 0x24 0x24 [0x14])).1
        0x24 0x24 1).1 = [0x28] := by
  constructor <;> rfl

/-- The error taxonomy of the master engine, from the spec (section 7):
`invalidAddress` is the configuration error raised before any hardware write;
the bus-fault variants propagate through `wait`. -/
inductive I2cError
  | invalidAddress
  | nackAddress
  | nackData
  | arbitrationLost
  | busTimeout
  deriving DecidableEq, Repr

/-- A hardware-visible action of the master engine: configuring the transfer
direction, asserting the bus start condition, or arming the DMA channel. -/
inductive MasterHwAction
  | configTransmitDirection
  | configReceiveDirection
  | configSlaveAddress (addr : Nat)
  | busStart
  | armDma (channelId : Nat)
  deriving DecidableEq, Repr

/-- Whether an action arms a DMA channel or asserts the bus start
condition. -/
def MasterHwAction.isArmOrStart : MasterHwAction → Bool
  | .busStart => true
  | .armDma _ => true
  | _ => false

/-- Outcome of constructing a master transaction: an immediate no-op success
(zero-length), or a pending transaction listing the actions its `start()`
will perform. -/
inductive MasterOutcome
  | immediateSuccess
  | pending (startActions : List MasterHwAction)
  deriving DecidableEq, Repr

/-- Modelled from the spec: `write_all(address, bytes, channel)` of the master
engine (source not among the files here). It validates address ∈ [0,127]
first, failing with `invalidAddress` before any hardware write; accepts
zero-length as a no-op success without arming DMA or asserting start; and
otherwise configures the transmit direction and returns a pending transaction
whose `start()` asserts the bus start condition and arms the channel. The
second component lists the hardware actions performed during construction. -/
def write_all (address : Nat) (bytes : List Nat) (channelId : Nat) :
    Except I2cError MasterOutcome × List MasterHwAction :=
  if 127 < address then (.error .invalidAddress, [])
  else if bytes.isEmpty then (.ok .immediateSuccess, [])
  else (.ok (.pending [.busStart, .armDma channelId]), [.configTransmitDirection])

/-- Modelled from the spec: `read_all(address, buffer, channel)` of the master
engine, with `bufferLen` the length of the caller's buffer. Validation and the
zero-length no-op mirror `write_all`; otherwise it configures the receive
direction and returns the pending transaction. -/
def read_all (address : Nat) (bufferLen : Nat) (channelId : Nat) :
    Except I2cError MasterOutcome × List MasterHwAction :=
  if 127 < address then (.error .invalidAddress, [])
  else if bufferLen = 0 then (.ok .immediateSuccess, [])
  else (.ok (.pending [.busStart, .armDma channelId]), [.configReceiveDirection])

/-- Modelled from the spec: configuring the slave address
(`enable_slave_mode(ADDRESS)` in the example) validates address ∈ [0,127],
failing with the configuration error before any hardware write, and otherwise
writes the address register. -/
def enable_slave_mode (address : Nat) :
    Except I2cError Nat × List MasterHwAction :=
  if 127 < address then (.error .invalidAddress, [])
  else (.ok address, [.configSlaveAddress address])

/-- Claim C2: for every address outside [0,127], constructing a master
transaction with `write_all` or `read_all`, and configuring the slave
address, fails with `invalidAddress` with zero hardware side effects; for
every address in [0,127] construction does not fail with `invalidAddress`. -/
theorem address_validated_before_hardware (address : Nat) (bytes : List Nat)
    (bufferLen channelId : Nat) :
    (127 < address →
      write_all address bytes channelId = (.error .invalidAddress, []) ∧
      read_all address bufferLen channelId = (.error .invalidAddress, []) ∧
      enable_slave_mode address = (.error .invalidAddress, [])) ∧
    (address ≤ 127 →
      (write_all address bytes channelId).1 ≠ .error .invalidAddress ∧
      (read_all address bufferLen channelId).1 ≠ .error .invalidAddress ∧
      (enable_slave_mode address).1 ≠ .error .invalidAddress) := by
  constructor
  · intro hout
    exact ⟨by rw [write_all, if_pos hout], by rw [read_all, if_pos hout],
      by rw [enable_slave_mode, if_pos hout]⟩
  · intro hin
    have hnot : ¬ 127 < address := Nat.not_lt.mpr hin
    refine ⟨?_, ?_, ?_⟩
    · rw [write_all, if_neg hnot]
      cases bytes <;> simp
    · rw [read_all, if_neg hnot]
      cases bufferLen <;> simp
    · rw [enable_slave_mode, if_neg hnot]
      simp

/-- Witness for claim C2's theorem: address 200 is rejected everywhere with no
hardware action; address `0x24` is never rejected as invalid. -/
theorem address_validated_before_hardware_witness :
    (127 < 200 ∧
      (write_all 200 [0x14] 15 = (.error .invalidAddress, []) ∧
        read_all 200 1 15 = (.error .invalidAddress, []) ∧
        enable_slave_mode 200 = (.error .invalidAddress, []))) ∧
    (0x24 ≤ 127 ∧
      ((write_all 0x24 [0x14] 15).1 ≠ .error .invalidAddress ∧
        (read_all 0x24 1 15).1 ≠ .error .invalidAddress ∧
        (enable_slave_mode 0x24).1 ≠ .error .invalidAddress)) :=
  ⟨⟨by decide, (address_validated_before_hardware 200 [0x14] 1 15).1 (by decide)⟩,
   ⟨by decide, (address_validated_before_hardware 0x24 [0x14] 1 15).2 (by decide)⟩⟩

/-- Claim C7: for every valid address and every channel, `write_all` with an
empty buffer and `read_all` with a zero-length buffer return success
immediately, with no DMA channel armed and no bus start condition asserted,
neither during construction nor by a pending `start()`. -/
theorem zero_length_is_noop_success (address channelId : Nat)
    (hvalid : address ≤ 127) :
    write_all address [] channelId = (.ok .immediateSuccess, []) ∧
    read_all address 0 channelId = (.ok .immediateSuccess, []) ∧
    (write_all address [] channelId).2.any MasterHwAction.isArmOrStart = false ∧
    (read_all address 0 channelId).2.any MasterHwAction.isArmOrStart = false := by
  have hnot : ¬ 127 < address := Nat.not_lt.mpr hvalid
  have hw : write_all address [] channelId = (.ok .immediateSuccess, []) := by
    rw [write_all, if_neg hnot]
    rfl
  have hr : read_all address 0 channelId = (.ok .immediateSuccess, []) := by
    rw [read_all, if_neg hnot]
    rfl
  exact ⟨hw, hr, by rw [hw]; rfl, by rw [hr]; rfl⟩

/-- Witness for claim C7's theorem at address `0x24` and channel 15. -/
theorem zero_length_is_noop_success_witness :
    0x24 ≤ 127 ∧
    (write_all 0x24 [] 15 = (.ok .immediateSuccess, []) ∧
      read_all 0x24 0 15 = (.ok .immediateSuccess, []) ∧
      (write_all 0x24 [] 15).2.any MasterHwAction.isArmOrStart = false ∧
      (read_all 0x24 0 15).2.any MasterHwAction.isArmOrStart = false) :=
  ⟨by decide, zero_length_is_noop_success 0x24 15 (by decide)⟩

end I2c

namespace Dma

/-- A live handle to one DMA channel, identified by its index. -/
structure ChannelHandle where
  id : Nat
  deriving DecidableEq, Repr

/-- Failure of `take`: the channel's handle is already held. -/
inductive ChannelError
  | alreadyTaken
  deriving DecidableEq, Repr

/-- Modelled from the spec: the Channel Manager of the DMA API (its channel
allocator source is not among the files here). It records which channel
indices currently have a live handle outstanding. -/
structure ChannelManager where
  live : List Nat
  deriving DecidableEq, Repr

/-- Modelled from the spec: `take(channel_id)` returns the unique handle for
the channel and fails if a handle for it is already held. -/
def ChannelManager.take (m : ChannelManager) (id : Nat) :
    Except ChannelError (ChannelHandle × ChannelManager) :=
  if id ∈ m.live then .error .alreadyTaken
  else .ok (⟨id⟩, ⟨id :: m.live⟩)

/-- Modelled from the spec: returning a handle to the pool on completion or
error restores the channel's availability. -/
def ChannelManager.giveBack (m : ChannelManager) (h : ChannelHandle) :
    ChannelManager :=
  ⟨m.live.erase h.id⟩

/-- One step of channel-manager usage: a take attempt or a hand-back. -/
inductive ChannelOp
  | takeOp (id : Nat)
  | releaseOp (id : Nat)
  deriving DecidableEq, Repr

/-- Running a sequence of channel operations; a failed take changes
nothing. -/
def ChannelManager.runChannelOps (m : ChannelManager) :
    List ChannelOp → ChannelManager
  | [] => m
  | .takeOp id :: ops =>
    (match m.take id with
     | .error _ => m
     | .ok r => r.2).runChannelOps ops
  | .releaseOp id :: ops => (m.giveBack ⟨id⟩).runChannelOps ops

theorem runChannelOps_count_le_one (ops : List ChannelOp) :
    ∀ m : ChannelManager, (∀ j, m.live.count j ≤ 1) →
      ∀ j, (m.runChannelOps ops).live.count j ≤ 1 := by
  induction ops with
  | nil =>
    intro m hm j
    exact hm j
  | cons op ops ih =>
    intro m hm j
    cases op with
    | takeOp i =>
      rw [ChannelManager.runChannelOps]
      by_cases hi : i ∈ m.live
      · rw [ChannelManager.take, if_pos hi]
        exact ih m hm j
      · rw [ChannelManager.take, if_neg hi]
        apply ih
        intro k
        show (i :: m.live).count k ≤ 1
        by_cases hk : i = k
        · subst hk
          have hz : m.live.count i = 0 := List.count_eq_zero.mpr hi
          simp [List.count_cons, hz]
        · have hk2 : k ≠ i := fun c => hk c.symm
          rw [List.count_cons_of_ne hk2]
          exact hm k
    | releaseOp i =>
      rw [ChannelManager.runChannelOps]
      apply ih
      intro k
      show (m.live.erase i).count k ≤ 1
      rw [List.count_erase]
      have := hm k
      omega

/-- Claim C3: `take(channel_id)` grants the unique handle for that channel; a
second take of the same channel while the first handle is outstanding fails
with `alreadyTaken` rather than returning a duplicate; and along every
operation sequence from the initial manager, at most one live handle per
channel exists at any moment. -/
theorem take_returns_unique_handle (ops : List ChannelOp) (id : Nat)
    (m m1 : ChannelManager) (h1 : ChannelHandle)
    (htake : m.take id = .ok (h1, m1)) :
    h1 = ⟨id⟩ ∧ m1.take id = .error .alreadyTaken ∧
    ((ChannelManager.mk []).runChannelOps ops).live.count id ≤ 1 := by
  rw [ChannelManager.take] at htake
  by_cases hmem : id ∈ m.live
  · rw [if_pos hmem] at htake
    exact absurd htake (by simp)
  · rw [if_neg hmem] at htake
    simp only [Except.ok.injEq, Prod.mk.injEq] at htake
    obtain ⟨he1, he2⟩ := htake
    subst he1
    subst he2
    refine ⟨rfl, ?_, ?_⟩
    · rw [ChannelManager.take, if_pos (List.mem_cons_self id m.live)]
    · refine runChannelOps_count_le_one ops ⟨[]⟩ ?_ id
      intro k
      simp

/-- Witness for claim C3's theorem: taking channel 15 from the fresh manager
succeeds, re-taking it fails, and a double-take run leaves at most one live
handle. -/
theorem take_returns_unique_handle_witness :
    ChannelManager.take ⟨[]⟩ 15 = .ok (⟨15⟩, ⟨[15]⟩) ∧
    ((⟨15⟩ : ChannelHandle) = ⟨15⟩ ∧
      ChannelManager.take ⟨[15]⟩ 15 = .error .alreadyTaken ∧
      ((ChannelManager.mk []).runChannelOps
          [ChannelOp.takeOp 15, ChannelOp.takeOp 15]).live.count 15 ≤ 1) :=
  ⟨rfl,
   take_returns_unique_handle [ChannelOp.takeOp 15, ChannelOp.takeOp 15] 15
     ⟨[]⟩ ⟨[15]⟩ ⟨15⟩ rfl⟩

end Dma

end Lpc8xxHal
